import Mathlib

/-!
Verification of the `nix-flake-show` library (`src/lib.rs`).

The development shallowly embeds the two components of the crate:

* the invocation builder `NixFlakeShowBuilder` with its `build` method,
  rendered here as a pure function from the accumulated configuration to
  the argument list handed to the subprocess (the two subcommand tokens
  `flake show`, the optional target url, then the flags in source order);
* the output normalizer: the serde data model (`FlakeShowOutput`,
  `HighLevelFieldAnatomy`, `FlakeAnatomyDetail`), the structural JSON
  deserialization performed by `serde_json::from_slice`, the
  `From<FlakeShowOutput> for FlakeInfo` flattening, and the
  `FlakeInfo::for_system` lookup.

Rust `HashMap`s are embedded as association lists with distinct keys;
deserializing a JSON object into a `HashMap` inserts the pairs one by one
(later duplicate keys overwrite earlier ones), so parsed maps always have
distinct keys.  `serde_json` byte-level lexing is abstracted: a stdout
document is either syntactically invalid JSON (`Stdout.invalid`, covering
e.g. truncated documents) or a structured JSON tree.  A Rust panic
(`unwrap` on a parse error) is modelled by `Option.none`.
-/

namespace NixFlakeShow

/-- A JSON document tree, the image of `serde_json`'s value model.
Numbers are irrelevant to the schema under study and carried as `Int`. -/
inductive Json where
  | null : Json
  | bool (b : Bool) : Json
  | num (n : Int) : Json
  | str (s : String) : Json
  | arr (elems : List Json) : Json
  | obj (fields : List (String × Json)) : Json
deriving Repr

/-- Rust `FlakeAnatomyDetail`: `{ name: String, type: String, description: Option<String> }`. -/
structure FlakeAnatomyDetail where
  name : String
  type : String
  description : Option String
deriving Repr, DecidableEq

/-- Rust `HighLevelFieldAnatomy`: a flattened `HashMap<String, FlakeAnatomyDetail>`
from invocation name to detail record. -/
structure HighLevelFieldAnatomy where
  names : List (String × FlakeAnatomyDetail)
deriving Repr, DecidableEq

/-- Rust `FlakeShowOutput`: the two optional top-level category maps, each a
`HashMap<String, HighLevelFieldAnatomy>` from platform to field group. -/
structure FlakeShowOutput where
  dev_shells : List (String × HighLevelFieldAnatomy)
  packages : List (String × HighLevelFieldAnatomy)
deriving Repr, DecidableEq

/-- Rust `Derivation`: the normalized entry, the detail record with the
invocation name promoted from map key to field. -/
structure Derivation where
  name : String
  kind : String
  description : Option String
  invocation : String
deriving Repr, DecidableEq

/-- Rust `IndividualFlakeInfos`: the per-platform view. -/
structure IndividualFlakeInfos where
  dev_shells : List Derivation
  packages : List Derivation
deriving Repr, DecidableEq

/-- Rust `FlakeInfo`: each category maps platform to its normalized entries. -/
structure FlakeInfo where
  dev_shells : List (String × List Derivation)
  packages : List (String × List Derivation)
deriving Repr, DecidableEq

/-! ## JSON deserialization (`serde_json::from_slice::<FlakeShowOutput>`) -/

/-- Field lookup in a JSON object, as serde sees the first occurrence of a
struct field. -/
def getField? (kvs : List (String × Json)) (k : String) : Option Json :=
  (kvs.find? (fun p => p.1 == k)).map (fun p => p.2)

/-- `HashMap::insert`: replace the value at an existing key, otherwise add the
pair.  Embedding keeps first-insertion order, which is immaterial to every
property proved here. -/
def insertHM {α : Type} (m : List (String × α)) (k : String) (v : α) :
    List (String × α) :=
  if m.any (fun p => p.1 == k) then
    m.map (fun p => if p.1 == k then (k, v) else p)
  else m ++ [(k, v)]

/-- Build a `HashMap` from a sequence of key/value pairs by repeated insertion,
later duplicates overwriting earlier ones (serde map deserialization). -/
def hmOfList {α : Type} (l : List (String × α)) : List (String × α) :=
  l.foldl (fun m p => insertHM m p.1 p.2) []

/-- Deserialize `FlakeAnatomyDetail`: `name` and `type` are required strings,
`description` is an optional string (`null` or absent become `None`); unknown
fields are ignored (serde default). -/
def parseDetail (j : Json) : Option FlakeAnatomyDetail :=
  match j with
  | Json.obj kvs => do
    let nm ← match getField? kvs "name" with
      | some (Json.str s) => some s
      | _ => none
    let ty ← match getField? kvs "type" with
      | some (Json.str s) => some s
      | _ => none
    let desc ← match getField? kvs "description" with
      | none => some none
      | some Json.null => some none
      | some (Json.str s) => some (some s)
      | some _ => none
    some ⟨nm, ty, desc⟩
  | _ => none

/-- Deserialize every value of a JSON object with `f`, failing if any single
value fails (serde map semantics: all-or-nothing). -/
def parsePairsWith {α : Type} (f : Json → Option α) :
    List (String × Json) → Option (List (String × α))
  | [] => some []
  | (k, j) :: rest => do
    let v ← f j
    let tail ← parsePairsWith f rest
    some ((k, v) :: tail)

/-- Deserialize `HighLevelFieldAnatomy`: the `#[serde(flatten)]` map captures
every key of the object, each value a `FlakeAnatomyDetail`. -/
def parseAnatomy (j : Json) : Option HighLevelFieldAnatomy :=
  match j with
  | Json.obj kvs => (parsePairsWith parseDetail kvs).map (fun l => ⟨hmOfList l⟩)
  | _ => none

/-- Deserialize one category map `HashMap<String, HighLevelFieldAnatomy>`. -/
def parseCategory (j : Json) : Option (List (String × HighLevelFieldAnatomy)) :=
  match j with
  | Json.obj kvs => (parsePairsWith parseAnatomy kvs).map hmOfList
  | _ => none

/-- Deserialize one top-level category field of `FlakeShowOutput`:
`#[serde(default)]` turns an absent field into the empty map, a present field
must deserialize as a category map. -/
def parseField (kvs : List (String × Json)) (field : String) :
    Option (List (String × HighLevelFieldAnatomy)) :=
  match getField? kvs field with
  | none => some []
  | some j => parseCategory j

/-- Deserialize `FlakeShowOutput` from a JSON tree: the document must be an
object; `devShells` and `packages` (camelCase renames) are both optional and
default to empty maps; additional top-level keys are ignored. -/
def parseFlakeShowOutput (j : Json) : Option FlakeShowOutput :=
  match j with
  | Json.obj kvs => do
    let d ← parseField kvs "devShells"
    let p ← parseField kvs "packages"
    some ⟨d, p⟩
  | _ => none

/-! ## Normalization (`From<FlakeShowOutput> for FlakeInfo`) -/

/-- One entry of the flatten loops: `Derivation { name, kind: type, description,
invocation: invok }` built from a `(invok, details)` pair of a field group. -/
def detailToDerivation (p : String × FlakeAnatomyDetail) : Derivation :=
  ⟨p.2.name, p.2.type, p.2.description, p.1⟩

/-- `devs.entry(arch).or_default()` followed by pushing `vs`: append to the
entry at `k`, creating the (possibly empty) entry if the key is absent. -/
def appendAt (m : List (String × List Derivation)) (k : String)
    (vs : List Derivation) : List (String × List Derivation) :=
  match m with
  | [] => [(k, vs)]
  | (k', vs') :: rest =>
    if k' = k then (k', vs' ++ vs) :: rest
    else (k', vs') :: appendAt rest k vs

/-- The `dev_shells` flatten loop of `From<FlakeShowOutput> for FlakeInfo`
(lines 210-222): for each `(arch, anat)`, take the entry for `arch` and push a
`Derivation` for each `(invok, details)` pair. -/
def flattenDevShells (cat : List (String × HighLevelFieldAnatomy)) :
    List (String × List Derivation) :=
  cat.foldl (fun devs p => appendAt devs p.1 (p.2.names.map detailToDerivation)) []

/-- The `packages` flatten loop of `From<FlakeShowOutput> for FlakeInfo`
(lines 224-235), transcribed separately from its own source lines. -/
def flattenPackages (cat : List (String × HighLevelFieldAnatomy)) :
    List (String × List Derivation) :=
  cat.foldl (fun devs p => appendAt devs p.1 (p.2.names.map detailToDerivation)) []

/-- `From<FlakeShowOutput> for FlakeInfo`. -/
def FlakeInfo.ofOutput (v : FlakeShowOutput) : FlakeInfo :=
  ⟨flattenDevShells v.dev_shells, flattenPackages v.packages⟩

/-! ## Lookup (`FlakeInfo::for_system`) and parsing entry point -/

/-- `self.map.get(sys).cloned().unwrap_or_default()`: the entry list at `sys`,
or the empty list when the key is absent. -/
def lookupOrDefault (m : List (String × List Derivation)) (sys : String) :
    List Derivation :=
  match m.find? (fun p => p.1 == sys) with
  | some p => p.2
  | none => []

/-- `FlakeInfo::for_system`. -/
def FlakeInfo.for_system (fi : FlakeInfo) (sys : String) : IndividualFlakeInfos :=
  ⟨lookupOrDefault fi.dev_shells sys, lookupOrDefault fi.packages sys⟩

/-- Captured stdout bytes as the parser sees them: either not a syntactically
valid JSON document (e.g. truncated), or a JSON tree. -/
inductive Stdout where
  | invalid : Stdout
  | json (j : Json) : Stdout
deriving Repr

/-- `FlakeInfo::from_stdout`: `serde_json::from_slice(v).unwrap().into()`.
`none` models the `unwrap` panic on any deserialization failure; no partial
`FlakeInfo` exists in that case. -/
def FlakeInfo.from_stdout (s : Stdout) : Option FlakeInfo :=
  match s with
  | Stdout.invalid => none
  | Stdout.json j => (parseFlakeShowOutput j).map FlakeInfo.ofOutput

/-! ## Invocation builder -/

/-- Rust `NixFlakeLogFormat`. -/
inductive NixFlakeLogFormat where
  | raw : NixFlakeLogFormat
  | internalJson : NixFlakeLogFormat
  | bar : NixFlakeLogFormat
  | barWithLogs : NixFlakeLogFormat
deriving Repr, DecidableEq

/-- The `--log-format` argument string for each variant. -/
def logFormatStr (lf : NixFlakeLogFormat) : String :=
  match lf with
  | NixFlakeLogFormat.raw => "raw"
  | NixFlakeLogFormat.internalJson => "internal-json"
  | NixFlakeLogFormat.bar => "bar"
  | NixFlakeLogFormat.barWithLogs => "bar-with-logs"

/-- Rust `NixFlakeShowBuilder`: the accumulated configuration. -/
structure NixFlakeShowBuilder where
  all_systems : Bool
  json : Bool
  legacy : Bool
  impure : Bool
  recreate_lock_file : Bool
  debug : Bool
  verbosity_level : Nat
  log_format : Option NixFlakeLogFormat
  url : Option String
deriving Repr, DecidableEq

/-- `#[derive(Default)]`: every flag off, verbosity 0, no log format, no url. -/
def NixFlakeShowBuilder.default : NixFlakeShowBuilder :=
  ⟨false, false, false, false, false, false, 0, none, none⟩

/-- `format!("-{}", "v".repeat(n))`: the single verbosity argument holding `n`
repetitions of the `v` flag. -/
def verbosityArg (n : Nat) : String :=
  "-" ++ String.mk (List.replicate n 'v')

/-- `NixFlakeShowBuilder::build`, as the argument list accumulated by the
successive `cmd.arg` calls: the two subcommand tokens, the optional url, then
each enabled flag in source order. -/
def build (c : NixFlakeShowBuilder) : List String :=
  let args := ["flake", "show"]
  let args := match c.url with
    | some u => args ++ [u]
    | none => args
  let args := if c.all_systems then args ++ ["--all-systems"] else args
  let args := if c.json then args ++ ["--json"] else args
  let args := if c.legacy then args ++ ["--legacy"] else args
  let args := if c.impure then args ++ ["--impure"] else args
  let args := if c.recreate_lock_file then args ++ ["--recreate-lock-file"] else args
  let args := if c.debug then args ++ ["--debug"] else args
  let args := if c.verbosity_level > 0 then args ++ [verbosityArg c.verbosity_level] else args
  let args := match c.log_format with
    | some lf => args ++ ["--log-format", logFormatStr lf]
    | none => args
  args

/-- One call to a configuration setter of `NixFlakeShowBuilder`. -/
inductive BuilderOp where
  | opAllSystems (b : Bool) : BuilderOp
  | opJson (b : Bool) : BuilderOp
  | opLegacy (b : Bool) : BuilderOp
  | opImpure (b : Bool) : BuilderOp
  | opRecreateLockFile (b : Bool) : BuilderOp
  | opDebug (b : Bool) : BuilderOp
  | opVerbosityLevel (n : Nat) : BuilderOp
  | opLogFormat (lf : Option NixFlakeLogFormat) : BuilderOp
  | opUrl (u : String) : BuilderOp
deriving Repr, DecidableEq

/-- Apply one setter call to the accumulated configuration (each Rust setter
overwrites its own field and returns `self`). -/
def applyOp (c : NixFlakeShowBuilder) (op : BuilderOp) : NixFlakeShowBuilder :=
  match op with
  | BuilderOp.opAllSystems b =>
    ⟨b, c.json, c.legacy, c.impure, c.recreate_lock_file, c.debug,
      c.verbosity_level, c.log_format, c.url⟩
  | BuilderOp.opJson b =>
    ⟨c.all_systems, b, c.legacy, c.impure, c.recreate_lock_file, c.debug,
      c.verbosity_level, c.log_format, c.url⟩
  | BuilderOp.opLegacy b =>
    ⟨c.all_systems, c.json, b, c.impure, c.recreate_lock_file, c.debug,
      c.verbosity_level, c.log_format, c.url⟩
  | BuilderOp.opImpure b =>
    ⟨c.all_systems, c.json, c.legacy, b, c.recreate_lock_file, c.debug,
      c.verbosity_level, c.log_format, c.url⟩
  | BuilderOp.opRecreateLockFile b =>
    ⟨c.all_systems, c.json, c.legacy, c.impure, b, c.debug,
      c.verbosity_level, c.log_format, c.url⟩
  | BuilderOp.opDebug b =>
    ⟨c.all_systems, c.json, c.legacy, c.impure, c.recreate_lock_file, b,
      c.verbosity_level, c.log_format, c.url⟩
  | BuilderOp.opVerbosityLevel n =>
    ⟨c.all_systems, c.json, c.legacy, c.impure, c.recreate_lock_file, c.debug,
      n, c.log_format, c.url⟩
  | BuilderOp.opLogFormat lf =>
    ⟨c.all_systems, c.json, c.legacy, c.impure, c.recreate_lock_file, c.debug,
      c.verbosity_level, lf, c.url⟩
  | BuilderOp.opUrl u =>
    ⟨c.all_systems, c.json, c.legacy, c.impure, c.recreate_lock_file, c.debug,
      c.verbosity_level, c.log_format, some u⟩

/-- The configuration field a setter call writes, as an index. -/
def opField (op : BuilderOp) : Nat :=
  match op with
  | BuilderOp.opAllSystems _ => 0
  | BuilderOp.opJson _ => 1
  | BuilderOp.opLegacy _ => 2
  | BuilderOp.opImpure _ => 3
  | BuilderOp.opRecreateLockFile _ => 4
  | BuilderOp.opDebug _ => 5
  | BuilderOp.opVerbosityLevel _ => 6
  | BuilderOp.opLogFormat _ => 7
  | BuilderOp.opUrl _ => 8

/-- The spec's canonical rendering, written from its wording: the two
subcommand tokens first, then the optional target, then each enabled flag in
the order all_systems, json, legacy, impure, recreate_lock_file, debug,
verbosity, log_format. -/
def specCanonicalArgs (c : NixFlakeShowBuilder) : List String :=
  ["flake", "show"]
    ++ (match c.url with | some u => [u] | none => [])
    ++ (if c.all_systems then ["--all-systems"] else [])
    ++ (if c.json then ["--json"] else [])
    ++ (if c.legacy then ["--legacy"] else [])
    ++ (if c.impure then ["--impure"] else [])
    ++ (if c.recreate_lock_file then ["--recreate-lock-file"] else [])
    ++ (if c.debug then ["--debug"] else [])
    ++ (if c.verbosity_level > 0 then [verbosityArg c.verbosity_level] else [])
    ++ (match c.log_format with
        | some lf => ["--log-format", logFormatStr lf]
        | none => [])

/-! ## Process execution (`into_structured`) -/

/-- What `self.build().output()` can come back with: an `io::Error` launching
the process, or an exit with a status and captured stdout. -/
inductive ProcResult where
  | launchFail (e : String) : ProcResult
  | exited (success : Bool) (stdout : Stdout) : ProcResult
deriving Repr

/-- The observable outcome of `into_structured`: `Err(io::Error)` from the
launch, a panic propagating out of `FlakeInfo::from_stdout`, or
`Ok(Option<FlakeInfo>)`. -/
inductive RunOutcome where
  | ioErr (e : String) : RunOutcome
  | panicked : RunOutcome
  | ok (r : Option FlakeInfo) : RunOutcome
deriving Repr, DecidableEq

/-- `NixFlakeShowBuilder::into_structured`, parametrized by the operating
system's response to the rendered command: `?` propagates a launch failure;
a successful exit parses stdout (panicking on malformed bytes); a non-zero
exit yields `Ok(None)`. -/
def into_structured (c : NixFlakeShowBuilder) (world : List String → ProcResult) :
    RunOutcome :=
  match world (build c) with
  | ProcResult.launchFail e => RunOutcome.ioErr e
  | ProcResult.exited success out =>
    if success then
      match FlakeInfo.from_stdout out with
      | some fi => RunOutcome.ok (some fi)
      | none => RunOutcome.panicked
    else RunOutcome.ok none

/-! ## Counting helpers for the losslessness claims -/

/-- Number of invocation-name keys summed over all platform mappings of one
parsed category. -/
def categoryKeyCount (cat : List (String × HighLevelFieldAnatomy)) : Nat :=
  (cat.map (fun p => p.2.names.length)).sum

/-- Number of normalized entries summed over all platform keys of one
`FlakeInfo` category. -/
def indexEntryCount (m : List (String × List Derivation)) : Nat :=
  (m.map (fun p => p.2.length)).sum

/-! ## Helper lemmas -/

theorem indexEntryCount_cons (p : String × List Derivation)
    (m : List (String × List Derivation)) :
    indexEntryCount (p :: m) = p.2.length + indexEntryCount m := by
  simp [indexEntryCount]

theorem indexEntryCount_appendAt (m : List (String × List Derivation))
    (k : String) (vs : List Derivation) :
    indexEntryCount (appendAt m k vs) = indexEntryCount m + vs.length := by
  induction m with
  | nil => simp [appendAt, indexEntryCount]
  | cons hd tl ih =>
    obtain ⟨k', vs'⟩ := hd
    by_cases h : k' = k
    · simp [appendAt, h, indexEntryCount_cons]
      omega
    · simp [appendAt, h, indexEntryCount_cons, ih]
      omega

theorem categoryKeyCount_cons (p : String × HighLevelFieldAnatomy)
    (cat : List (String × HighLevelFieldAnatomy)) :
    categoryKeyCount (p :: cat) = p.2.names.length + categoryKeyCount cat := by
  simp [categoryKeyCount]

theorem indexEntryCount_flatten_aux (cat : List (String × HighLevelFieldAnatomy))
    (acc : List (String × List Derivation)) :
    indexEntryCount
      (cat.foldl (fun devs p => appendAt devs p.1 (p.2.names.map detailToDerivation)) acc)
      = indexEntryCount acc + categoryKeyCount cat := by
  induction cat generalizing acc with
  | nil => simp [categoryKeyCount]
  | cons hd tl ih =>
    rw [List.foldl_cons, ih, indexEntryCount_appendAt, categoryKeyCount_cons]
    simp
    omega

theorem flattenDevShells_count (cat : List (String × HighLevelFieldAnatomy)) :
    indexEntryCount (flattenDevShells cat) = categoryKeyCount cat := by
  rw [flattenDevShells, indexEntryCount_flatten_aux]
  simp [indexEntryCount]

theorem flattenPackages_count (cat : List (String × HighLevelFieldAnatomy)) :
    indexEntryCount (flattenPackages cat) = categoryKeyCount cat := by
  rw [flattenPackages, indexEntryCount_flatten_aux]
  simp [indexEntryCount]

theorem appendAt_not_mem (m : List (String × List Derivation)) (k : String)
    (vs : List Derivation) (h : k ∉ m.map Prod.fst) :
    appendAt m k vs = m ++ [(k, vs)] := by
  induction m with
  | nil => rfl
  | cons hd tl ih =>
    obtain ⟨k', vs'⟩ := hd
    simp only [List.map_cons, List.mem_cons] at h
    push_neg at h
    simp [appendAt, Ne.symm h.1, ih h.2]

theorem flatten_aux_eq_map (cat : List (String × HighLevelFieldAnatomy))
    (acc : List (String × List Derivation))
    (hdisj : ∀ k ∈ cat.map Prod.fst, k ∉ acc.map Prod.fst)
    (hnd : (cat.map Prod.fst).Nodup) :
    cat.foldl (fun devs p => appendAt devs p.1 (p.2.names.map detailToDerivation)) acc
      = acc ++ cat.map (fun p => (p.1, p.2.names.map detailToDerivation)) := by
  induction cat generalizing acc with
  | nil => simp
  | cons hd tl ih =>
    obtain ⟨k, anat⟩ := hd
    simp only [List.map_cons, List.nodup_cons] at hnd
    rw [List.foldl_cons]
    have hk : k ∉ acc.map Prod.fst := hdisj k (by simp)
    rw [appendAt_not_mem _ _ _ hk]
    rw [ih]
    · simp
    · intro k' hk'
      simp only [List.map_append, List.mem_append]
      push_neg
      refine ⟨hdisj k' (by simp [hk']), ?_⟩
      simp only [List.map_cons, List.map_nil, List.mem_singleton]
      intro hcon
      exact hnd.1 (hcon ▸ hk')
    · exact hnd.2

theorem flattenDevShells_eq_map (cat : List (String × HighLevelFieldAnatomy))
    (hnd : (cat.map Prod.fst).Nodup) :
    flattenDevShells cat
      = cat.map (fun p => (p.1, p.2.names.map detailToDerivation)) := by
  rw [flattenDevShells, flatten_aux_eq_map cat [] (by simp) hnd]
  simp

theorem flattenPackages_eq_map (cat : List (String × HighLevelFieldAnatomy))
    (hnd : (cat.map Prod.fst).Nodup) :
    flattenPackages cat
      = cat.map (fun p => (p.1, p.2.names.map detailToDerivation)) := by
  rw [flattenPackages, flatten_aux_eq_map cat [] (by simp) hnd]
  simp

theorem lookupOrDefault_not_mem (m : List (String × List Derivation)) (sys : String)
    (h : sys ∉ m.map Prod.fst) : lookupOrDefault m sys = [] := by
  rw [lookupOrDefault]
  have : m.find? (fun p => p.1 == sys) = none := by
    rw [List.find?_eq_none]
    intro p hp
    simp only [beq_iff_eq]
    intro hps
    exact h (List.mem_map.mpr ⟨p, hp, hps⟩)
  rw [this]

theorem lookupOrDefault_mem_nodup (m : List (String × List Derivation))
    (sys : String) (l : List Derivation)
    (hnd : (m.map Prod.fst).Nodup) (hmem : (sys, l) ∈ m) :
    lookupOrDefault m sys = l := by
  induction m with
  | nil => cases hmem
  | cons hd tl ih =>
    obtain ⟨k, vs⟩ := hd
    simp only [List.map_cons, List.nodup_cons] at hnd
    rcases List.mem_cons.mp hmem with heq | htl
    · obtain ⟨hk, hv⟩ := Prod.mk.injEq .. ▸ heq.symm
      simp [lookupOrDefault, List.find?_cons, hk, hv]
    · have hne : k ≠ sys := fun hcon =>
        hnd.1 (List.mem_map.mpr ⟨(sys, l), htl, by simp [hcon]⟩)
      have hb : (k == sys) = false := by simpa using hne
      have htail := ih hnd.2 htl
      rw [lookupOrDefault] at htail ⊢
      simpa [List.find?_cons, hb] using htail

theorem lookupOrDefault_subset (m : List (String × List Derivation))
    (sys : String) (d : Derivation) (h : d ∈ lookupOrDefault m sys) :
    ∃ l, (sys, l) ∈ m ∧ d ∈ l := by
  rw [lookupOrDefault] at h
  cases hf : m.find? (fun p => p.1 == sys) with
  | none => rw [hf] at h; cases h
  | some p =>
    rw [hf] at h
    have hp : p.1 = sys := by simpa using List.find?_some hf
    have hm : p ∈ m := List.mem_of_find?_eq_some hf
    exact ⟨p.2, by rw [← hp]; exact hm, h⟩

theorem detailToDerivation_injective : Function.Injective detailToDerivation := by
  rintro ⟨i1, n1, t1, d1⟩ ⟨i2, n2, t2, d2⟩ h
  simp only [detailToDerivation, Derivation.mk.injEq] at h
  obtain ⟨h1, h2, h3, h4⟩ := h
  simp [h1, h2, h3, h4]

theorem append_ite_push {p : Prop} [Decidable p] (args x : List String) :
    (if p then args ++ x else args) = args ++ (if p then x else []) := by
  by_cases h : p <;> simp [h]

theorem build_eq_specCanonicalArgs (c : NixFlakeShowBuilder) :
    build c = specCanonicalArgs c := by
  obtain ⟨a, j, l, i, r, d, vl, lf, u⟩ := c
  rcases Nat.eq_zero_or_pos vl with hv | hv <;>
    cases u <;> cases lf <;> cases a <;> cases j <;> cases l <;> cases i <;>
    cases r <;> cases d <;>
    simp [build, specCanonicalArgs, hv]

theorem applyOp_comm (c : NixFlakeShowBuilder) (o1 o2 : BuilderOp)
    (h : opField o1 ≠ opField o2) :
    applyOp (applyOp c o1) o2 = applyOp (applyOp c o2) o1 := by
  obtain ⟨a, j, l, i, r, d, vl, lf, u⟩ := c
  cases o1 <;> cases o2 <;> first | rfl | exact absurd rfl h

theorem verbosityArg_second_char (k : Nat) :
    (verbosityArg (k + 1)).data.get? 1 = some 'v' := rfl

theorem ne_verbosityArg_of_second_char (s : String) (hs : s.data.get? 1 ≠ some 'v')
    (k : Nat) (hk : 0 < k) : verbosityArg k ≠ s := by
  obtain ⟨k', rfl⟩ : ∃ k', k = k' + 1 := ⟨k - 1, by omega⟩
  intro h
  exact hs (h ▸ verbosityArg_second_char k')

/-! ## Claim theorems -/

/-- Claim C1: for every parsed `FlakeShowOutput`, normalization is lossless
with respect to entry count: in each category the total number of `Derivation`
entries summed over all platform keys of the resulting `FlakeInfo` equals the
total number of invocation-name keys summed over all platform mappings of that
category in the parsed input. -/
theorem C1_normalization_lossless_entry_count (v : FlakeShowOutput) :
    indexEntryCount (FlakeInfo.ofOutput v).dev_shells = categoryKeyCount v.dev_shells ∧
    indexEntryCount (FlakeInfo.ofOutput v).packages = categoryKeyCount v.packages :=
  ⟨flattenDevShells_count v.dev_shells, flattenPackages_count v.packages⟩

/-- Claim C10: the two per-category flatten loops of
`From<FlakeShowOutput> for FlakeInfo` compute the same transform: on every
platform-to-field-group mapping, the `dev_shells` loop and the `packages` loop
produce the same platform-to-entry-sequence mapping, so the normalization is
one operation applied twice. -/
theorem C10_flatten_loops_equivalent (cat : List (String × HighLevelFieldAnatomy)) :
    flattenDevShells cat = flattenPackages cat := rfl

/-- Claim C3: `for_system` on a platform absent from both the `dev_shells` and
`packages` mappings returns a view with empty sequences in both categories; it
is a total function (a Lean function, hence never failing). -/
theorem C3_for_system_absent_platform_empty (fi : FlakeInfo) (sys : String)
    (h1 : sys ∉ fi.dev_shells.map Prod.fst) (h2 : sys ∉ fi.packages.map Prod.fst) :
    fi.for_system sys = ⟨[], []⟩ := by
  rw [FlakeInfo.for_system, lookupOrDefault_not_mem _ _ h1,
    lookupOrDefault_not_mem _ _ h2]

/-- Witness for C3 at a concrete index and an absent platform. -/
theorem C3_for_system_absent_platform_empty_witness :
    ("riscv64-linux" ∉ (FlakeInfo.mk [("x86_64-linux", [])] [("aarch64-darwin", [])]).dev_shells.map Prod.fst ∧
      "riscv64-linux" ∉ (FlakeInfo.mk [("x86_64-linux", [])] [("aarch64-darwin", [])]).packages.map Prod.fst) ∧
    FlakeInfo.for_system (FlakeInfo.mk [("x86_64-linux", [])] [("aarch64-darwin", [])]) "riscv64-linux"
      = ⟨[], []⟩ :=
  ⟨⟨by decide, by decide⟩,
    C3_for_system_absent_platform_empty
      (FlakeInfo.mk [("x86_64-linux", [])] [("aarch64-darwin", [])])
      "riscv64-linux" (by decide) (by decide)⟩

/-- Claim C8: every entry of the view returned by `for_system` appears under
that platform key in the corresponding category mapping of the index, and when
the platform key is present every entry under it appears in the view: the view
neither invents nor drops entries except by platform-key absence.  The key
lists carry the `HashMap` distinct-keys invariant. -/
theorem C8_view_subset_complete (fi : FlakeInfo) (sys : String)
    (hnd : (fi.dev_shells.map Prod.fst).Nodup)
    (hnp : (fi.packages.map Prod.fst).Nodup) :
    (∀ d ∈ (fi.for_system sys).dev_shells, ∃ l, (sys, l) ∈ fi.dev_shells ∧ d ∈ l) ∧
    (∀ d ∈ (fi.for_system sys).packages, ∃ l, (sys, l) ∈ fi.packages ∧ d ∈ l) ∧
    (∀ l, (sys, l) ∈ fi.dev_shells → ∀ d ∈ l, d ∈ (fi.for_system sys).dev_shells) ∧
    (∀ l, (sys, l) ∈ fi.packages → ∀ d ∈ l, d ∈ (fi.for_system sys).packages) := by
  refine ⟨?_, ?_, ?_, ?_⟩
  · intro d hd
    exact lookupOrDefault_subset _ _ _ hd
  · intro d hd
    exact lookupOrDefault_subset _ _ _ hd
  · intro l hl d hd
    show d ∈ lookupOrDefault fi.dev_shells sys
    rw [lookupOrDefault_mem_nodup _ _ _ hnd hl]
    exact hd
  · intro l hl d hd
    show d ∈ lookupOrDefault fi.packages sys
    rw [lookupOrDefault_mem_nodup _ _ _ hnp hl]
    exact hd

/-- Witness for C8: the view surfaces the concrete entry stored under its
platform key. -/
theorem C8_view_subset_complete_witness :
    (((FlakeInfo.mk [("p", [Derivation.mk "n" "k" none "i"])] []).dev_shells.map Prod.fst).Nodup ∧
      ((FlakeInfo.mk [("p", [Derivation.mk "n" "k" none "i"])] []).packages.map Prod.fst).Nodup) ∧
    Derivation.mk "n" "k" none "i"
      ∈ (FlakeInfo.for_system (FlakeInfo.mk [("p", [Derivation.mk "n" "k" none "i"])] []) "p").dev_shells :=
  ⟨⟨by decide, by decide⟩,
    (C8_view_subset_complete (FlakeInfo.mk [("p", [Derivation.mk "n" "k" none "i"])] []) "p"
      (by decide) (by decide)).2.2.1
      [Derivation.mk "n" "k" none "i"] (by decide)
      (Derivation.mk "n" "k" none "i") (by decide)⟩

/-- Claim C2: round-trip of a single record: if the parsed input holds, in
category `packages` under platform `"p"` and invocation name `"i"`, the detail
record with name `"n"`, type `"k"` and description `some "d"`, then the
normalized `FlakeInfo.packages` at key `"p"` contains exactly one element equal
to the `Derivation` with name `"n"`, kind `"k"`, description `some "d"` and
invocation `"i"`.  Key lists carry the `HashMap` distinct-keys invariant. -/
theorem C2_roundtrip_single_record (v : FlakeShowOutput) (anat : HighLevelFieldAnatomy)
    (hnd : (v.packages.map Prod.fst).Nodup)
    (hna : (anat.names.map Prod.fst).Nodup)
    (hmem : ("p", anat) ∈ v.packages)
    (hrec : ("i", FlakeAnatomyDetail.mk "n" "k" (some "d")) ∈ anat.names) :
    (lookupOrDefault (FlakeInfo.ofOutput v).packages "p").count
      (Derivation.mk "n" "k" (some "d") "i") = 1 := by
  have hpk : (FlakeInfo.ofOutput v).packages
      = v.packages.map (fun p => (p.1, p.2.names.map detailToDerivation)) :=
    flattenPackages_eq_map v.packages hnd
  have hnd' : ((v.packages.map
      (fun p => (p.1, p.2.names.map detailToDerivation))).map Prod.fst).Nodup := by
    rw [List.map_map]
    exact hnd
  have hmem' : ("p", anat.names.map detailToDerivation)
      ∈ v.packages.map (fun p => (p.1, p.2.names.map detailToDerivation)) :=
    List.mem_map.mpr ⟨("p", anat), hmem, rfl⟩
  rw [hpk, lookupOrDefault_mem_nodup _ _ _ hnd' hmem']
  have hder : Derivation.mk "n" "k" (some "d") "i"
      = detailToDerivation ("i", FlakeAnatomyDetail.mk "n" "k" (some "d")) := rfl
  rw [hder, List.count_map_of_injective _ _ detailToDerivation_injective]
  exact List.count_eq_one_of_mem (List.Nodup.of_map _ hna) hrec

/-- Witness for C2 on the one-record input. -/
theorem C2_roundtrip_single_record_witness :
    (((FlakeShowOutput.mk [] [("p", ⟨[("i", ⟨"n", "k", some "d"⟩)]⟩)]).packages.map Prod.fst).Nodup ∧
      (((⟨[("i", ⟨"n", "k", some "d"⟩)]⟩ : HighLevelFieldAnatomy)).names.map Prod.fst).Nodup ∧
      ("p", (⟨[("i", ⟨"n", "k", some "d"⟩)]⟩ : HighLevelFieldAnatomy))
        ∈ (FlakeShowOutput.mk [] [("p", ⟨[("i", ⟨"n", "k", some "d"⟩)]⟩)]).packages ∧
      ("i", FlakeAnatomyDetail.mk "n" "k" (some "d"))
        ∈ (⟨[("i", ⟨"n", "k", some "d"⟩)]⟩ : HighLevelFieldAnatomy).names) ∧
    (lookupOrDefault
        (FlakeInfo.ofOutput (FlakeShowOutput.mk [] [("p", ⟨[("i", ⟨"n", "k", some "d"⟩)]⟩)])).packages
        "p").count (Derivation.mk "n" "k" (some "d") "i") = 1 :=
  ⟨⟨by decide, by decide, by decide, by decide⟩,
    C2_roundtrip_single_record
      (FlakeShowOutput.mk [] [("p", ⟨[("i", ⟨"n", "k", some "d"⟩)]⟩)])
      ⟨[("i", ⟨"n", "k", some "d"⟩)]⟩
      (by decide) (by decide) (by decide) (by decide)⟩

/-- Membership inventory of the canonical argument list: every element is one
of the subcommand tokens, the target url, a fixed flag, the verbosity
argument, or a log-format token. -/
theorem mem_specCanonicalArgs (c : NixFlakeShowBuilder) (x : String)
    (hx : x ∈ specCanonicalArgs c) :
    x = "flake" ∨ x = "show" ∨ (∃ u, c.url = some u ∧ x = u) ∨
    x ∈ (["--all-systems", "--json", "--legacy", "--impure",
      "--recreate-lock-file", "--debug"] : List String) ∨
    (0 < c.verbosity_level ∧ x = verbosityArg c.verbosity_level) ∨
    x = "--log-format" ∨ (∃ lf, c.log_format = some lf ∧ x = logFormatStr lf) := by
  obtain ⟨a, j, l, i, r, d, vl, lf, u⟩ := c
  cases u <;> cases lf <;> simp [specCanonicalArgs] at hx ⊢ <;> tauto

/-- Claim C5: `build()` is deterministic and renders the argument list in one
fixed canonical order regardless of the order the setters were called in: the
two subcommand tokens first, then the optional target path, then the enabled
flags in the order all_systems, json, legacy, impure, recreate_lock_file,
debug, verbosity, log_format (`specCanonicalArgs` is that canonical order
transcribed from the spec); any two setter sequences that are permutations of
one another and touch distinct fields build the same argument list. -/
theorem C5_build_deterministic_canonical_order :
    (∀ c : NixFlakeShowBuilder, build c = specCanonicalArgs c) ∧
    (∀ ops1 ops2 : List BuilderOp, List.Perm ops1 ops2 →
      (ops1.map opField).Nodup →
      build (ops1.foldl applyOp NixFlakeShowBuilder.default)
        = build (ops2.foldl applyOp NixFlakeShowBuilder.default)) := by
  refine ⟨build_eq_specCanonicalArgs, ?_⟩
  intro ops1 ops2 hperm hnd
  have hfold : ops1.foldl applyOp NixFlakeShowBuilder.default
      = ops2.foldl applyOp NixFlakeShowBuilder.default := by
    apply hperm.foldl_eq'
    intro x hx y hy z
    by_cases hxy : x = y
    · rw [hxy]
    · exact applyOp_comm z x y
        (fun hf => hxy (List.inj_on_of_nodup_map hnd hx hy hf))
  rw [hfold]

/-- Witness for C5: setting json then all_systems builds the same command as
setting all_systems then json. -/
theorem C5_build_deterministic_canonical_order_witness :
    (List.Perm [BuilderOp.opJson true, BuilderOp.opAllSystems true]
        [BuilderOp.opAllSystems true, BuilderOp.opJson true] ∧
      (([BuilderOp.opJson true, BuilderOp.opAllSystems true]).map opField).Nodup) ∧
    build (([BuilderOp.opJson true, BuilderOp.opAllSystems true]).foldl applyOp
        NixFlakeShowBuilder.default)
      = build (([BuilderOp.opAllSystems true, BuilderOp.opJson true]).foldl applyOp
        NixFlakeShowBuilder.default) :=
  ⟨⟨by decide, by decide⟩,
    C5_build_deterministic_canonical_order.2
      [BuilderOp.opJson true, BuilderOp.opAllSystems true]
      [BuilderOp.opAllSystems true, BuilderOp.opJson true]
      (by decide) (by decide)⟩

/-- Claim C9: with `verbosity_level = N > 0`, `build()` emits the verbosity
argument holding `N` repetitions of the `v` flag; with `N = 0` (the default) no
verbosity-shaped argument appears — provided the free-form target url is not
itself spelled like a verbosity argument, since the url string is echoed
verbatim into the argument list. -/
theorem C9_verbosity_flag_repetitions (c : NixFlakeShowBuilder) :
    (0 < c.verbosity_level → verbosityArg c.verbosity_level ∈ build c) ∧
    (c.verbosity_level = 0 →
      (∀ u, c.url = some u → ∀ k, 0 < k → u ≠ verbosityArg k) →
      ∀ k, 0 < k → verbosityArg k ∉ build c) := by
  constructor
  · intro hv
    rw [build_eq_specCanonicalArgs, specCanonicalArgs]
    simp [hv]
  · intro h0 hurl k hk hmem
    rw [build_eq_specCanonicalArgs] at hmem
    have hne : ∀ s : String, s.data.get? 1 ≠ some 'v' → verbosityArg k ≠ s :=
      fun s hs => ne_verbosityArg_of_second_char s hs k hk
    rcases mem_specCanonicalArgs c _ hmem with
      h | h | ⟨u', hu, h⟩ | h | ⟨hpos, _⟩ | h | ⟨lfv, _, h⟩
    · exact hne "flake" (by decide) h
    · exact hne "show" (by decide) h
    · exact hurl u' hu k hk h.symm
    · simp only [List.mem_cons, List.mem_singleton, List.not_mem_nil,
        or_false] at h
      rcases h with h | h | h | h | h | h <;> exact hne _ (by decide) h
    · rw [h0] at hpos
      exact absurd hpos (lt_irrefl 0)
    · exact hne "--log-format" (by decide) h
    · exact hne (logFormatStr lfv) (by cases lfv <;> decide) h

/-- Witness for C9: verbosity 2 emits `-vv`; the default (verbosity 0) emits
no verbosity argument. -/
theorem C9_verbosity_flag_repetitions_witness :
    (0 < (2 : Nat) ∧
      verbosityArg 2
        ∈ build ⟨false, false, false, false, false, false, 2, none, none⟩) ∧
    verbosityArg 1 ∉ build NixFlakeShowBuilder.default :=
  ⟨⟨by decide,
      (C9_verbosity_flag_repetitions
        ⟨false, false, false, false, false, false, 2, none, none⟩).1 (by decide)⟩,
    (C9_verbosity_flag_repetitions NixFlakeShowBuilder.default).2 rfl
      (fun u h => by cases h) 1 (by decide)⟩

/-- Claim C6: with the builder's `into_structured`, a non-zero tool exit
yields `Ok(None)` ("no result" inside a successful result), a launch failure
propagates as the fatal `Err` value, and the two outcomes have different
shapes. -/
theorem C6_nonzero_exit_vs_launch_failure (c : NixFlakeShowBuilder)
    (world : List String → ProcResult) (e : String) (s : Stdout) :
    (world (build c) = ProcResult.exited false s →
      into_structured c world = RunOutcome.ok none) ∧
    (world (build c) = ProcResult.launchFail e →
      into_structured c world = RunOutcome.ioErr e) ∧
    RunOutcome.ok none ≠ RunOutcome.ioErr e := by
  refine ⟨?_, ?_, ?_⟩
  · intro h
    simp [into_structured, h]
  · intro h
    simp [into_structured, h]
  · intro h
    exact RunOutcome.noConfusion h

/-- Witness for C6 on concrete worlds: a failing tool exit and a failing
launch. -/
theorem C6_nonzero_exit_vs_launch_failure_witness :
    into_structured NixFlakeShowBuilder.default
        (fun _ => ProcResult.exited false Stdout.invalid) = RunOutcome.ok none ∧
    into_structured NixFlakeShowBuilder.default
        (fun _ => ProcResult.launchFail "not found") = RunOutcome.ioErr "not found" ∧
    RunOutcome.ok none ≠ RunOutcome.ioErr "not found" :=
  ⟨(C6_nonzero_exit_vs_launch_failure NixFlakeShowBuilder.default
      (fun _ => ProcResult.exited false Stdout.invalid) "not found" Stdout.invalid).1 rfl,
    (C6_nonzero_exit_vs_launch_failure NixFlakeShowBuilder.default
      (fun _ => ProcResult.launchFail "not found") "not found" Stdout.invalid).2.1 rfl,
    (C6_nonzero_exit_vs_launch_failure NixFlakeShowBuilder.default
      (fun _ => ProcResult.launchFail "not found") "not found" Stdout.invalid).2.2⟩

/-- Claim C4: parsing malformed bytes (a non-JSON/truncated document, or a
document whose detail record lacks a required field) makes the parse fail
fatally with no partial `FlakeInfo` (the `unwrap` panic, modelled as `none` /
`RunOutcome.panicked`), and that outcome is distinguishable from a launch
failure (`RunOutcome.ioErr`). -/
theorem C4_parse_failure_fatal_distinguishable (doc : Json) (e : String)
    (hbad : parseFlakeShowOutput doc = none) :
    FlakeInfo.from_stdout (Stdout.json doc) = none ∧
    FlakeInfo.from_stdout Stdout.invalid = none ∧
    (∀ world : List String → ProcResult, ∀ c : NixFlakeShowBuilder,
      world (build c) = ProcResult.exited true (Stdout.json doc) →
      into_structured c world = RunOutcome.panicked) ∧
    RunOutcome.panicked ≠ RunOutcome.ioErr e := by
  refine ⟨?_, rfl, ?_, ?_⟩
  · simp [FlakeInfo.from_stdout, hbad]
  · intro world c h
    simp [into_structured, h, FlakeInfo.from_stdout, hbad]
  · intro h
    exact RunOutcome.noConfusion h

/-- Witness for C4 on a document whose detail record is missing the required
`name` field: the parse yields no partial result and `into_structured`
panics rather than returning a launch error. -/
theorem C4_parse_failure_fatal_distinguishable_witness :
    parseFlakeShowOutput (Json.obj [("packages", Json.obj [("p", Json.obj
        [("i", Json.obj [("type", Json.str "k")])])])]) = none ∧
    FlakeInfo.from_stdout (Stdout.json (Json.obj [("packages", Json.obj [("p", Json.obj
        [("i", Json.obj [("type", Json.str "k")])])])])) = none ∧
    into_structured NixFlakeShowBuilder.default
        (fun _ => ProcResult.exited true (Stdout.json (Json.obj [("packages", Json.obj
          [("p", Json.obj [("i", Json.obj [("type", Json.str "k")])])])])))
      = RunOutcome.panicked ∧
    RunOutcome.panicked ≠ RunOutcome.ioErr "launch" :=
  ⟨rfl,
    (C4_parse_failure_fatal_distinguishable (Json.obj [("packages", Json.obj [("p", Json.obj
      [("i", Json.obj [("type", Json.str "k")])])])]) "launch" rfl).1,
    (C4_parse_failure_fatal_distinguishable (Json.obj [("packages", Json.obj [("p", Json.obj
      [("i", Json.obj [("type", Json.str "k")])])])]) "launch" rfl).2.2.1
      (fun _ => ProcResult.exited true (Stdout.json (Json.obj [("packages", Json.obj
        [("p", Json.obj [("i", Json.obj [("type", Json.str "k")])])])])))
      NixFlakeShowBuilder.default rfl,
    (C4_parse_failure_fatal_distinguishable (Json.obj [("packages", Json.obj [("p", Json.obj
      [("i", Json.obj [("type", Json.str "k")])])])]) "launch" rfl).2.2.2⟩

/-- Claim C7: an input JSON object lacking the top-level `devShells` key, the
`packages` key, or both, still parses successfully, the absent category
behaving as an empty mapping; absence is never a parse failure. -/
theorem C7_absent_toplevel_keys_empty (kvs : List (String × Json))
    (pm dm : List (String × HighLevelFieldAnatomy)) :
    (getField? kvs "devShells" = none → getField? kvs "packages" = none →
      parseFlakeShowOutput (Json.obj kvs) = some ⟨[], []⟩) ∧
    (getField? kvs "devShells" = none → parseField kvs "packages" = some pm →
      parseFlakeShowOutput (Json.obj kvs) = some ⟨[], pm⟩) ∧
    (getField? kvs "packages" = none → parseField kvs "devShells" = some dm →
      parseFlakeShowOutput (Json.obj kvs) = some ⟨dm, []⟩) := by
  refine ⟨?_, ?_, ?_⟩
  · intro h1 h2
    have hd : parseField kvs "devShells" = some [] := by simp [parseField, h1]
    have hp : parseField kvs "packages" = some [] := by simp [parseField, h2]
    simp [parseFlakeShowOutput, hd, hp]
  · intro h1 h2
    have hd : parseField kvs "devShells" = some [] := by simp [parseField, h1]
    simp [parseFlakeShowOutput, hd, h2]
  · intro h1 h2
    have hp : parseField kvs "packages" = some [] := by simp [parseField, h1]
    simp [parseFlakeShowOutput, h2, hp]

/-- Witness for C7: the empty object and an object with only `packages`
both parse, the absent categories empty. -/
theorem C7_absent_toplevel_keys_empty_witness :
    parseFlakeShowOutput (Json.obj []) = some ⟨[], []⟩ ∧
    parseFlakeShowOutput (Json.obj [("packages", Json.obj [])]) = some ⟨[], []⟩ :=
  ⟨(C7_absent_toplevel_keys_empty [] [] []).1 rfl rfl,
    (C7_absent_toplevel_keys_empty [("packages", Json.obj [])] [] []).2.1 rfl rfl⟩

end NixFlakeShow
